import Mathlib

set_option autoImplicit false

/-
Verification development for the PhotoCore media gallery.

The Go sources under internal/storage, internal/scanner and internal/worker
are shallowly embedded below.  Modelling conventions:

* the bbolt media bucket is a `List Media` in bucket-iteration order;
  `Put` on an existing key replaces the value in place, `Put` on a fresh
  key appends;
* `time.Time` is modelled by `GoTime`, a pair of a calendar year and an
  abstract tick; the Go zero time has year 1;
* Go `float64` fields that are only ever stored and copied (duration, GPS
  coordinates) are carried as `Int`; the float arithmetic in
  `FindMediaBySizeRange` (`int64(float64(size) * 0.9)`) is modelled by
  exact rational arithmetic truncated toward zero, `Int.tdiv (9*size) 10`;
* `uint64` perceptual hashes are carried as `Nat`: the bit operations
  used (`xor`, `and`, subtraction of 1 from a nonzero value) never leave
  the 64-bit range, so no explicit modulus is needed;
* `GenerateID` (SHA-256 of the absolute path) is modelled as an injective
  encoding of the path;
* fallible store operations return `Except String`.
-/

namespace PhotoCore

/-- Model of Go `time.Time`: the calendar year together with an abstract
tick distinguishing instants.  The Go zero time has year 1. -/
structure GoTime where
  year : Nat
  tick : Nat
  deriving DecidableEq, Repr

/-- The Go zero value of `time.Time`. -/
def GoTime.zero : GoTime := ⟨1, 0⟩

/-- MediaType from storage/models.go: image, video or raw. -/
inductive MediaType where
  | image
  | video
  | raw
  deriving DecidableEq, Repr

/-- Metadata from storage/models.go (EXIF and related metadata).
GPS coordinates are Go float64 values that are only stored and copied,
carried here as `Int`. -/
structure Metadata where
  camera : String := ""
  lens : String := ""
  focalLength : String := ""
  aperture : String := ""
  shutterSpeed : String := ""
  iso : Int := 0
  gpsLat : Int := 0
  gpsLon : Int := 0
  orientation : Int := 0
  deriving DecidableEq, Repr

/-- Media from storage/models.go.  Field defaults are the Go zero
values, so a Lean structure literal that omits fields agrees with the Go
composite literal that omits them. -/
structure Media where
  id : String := ""
  path : String := ""
  relPath : String := ""
  dir : String := ""
  filename : String := ""
  ext : String := ""
  type : MediaType := .image
  mimeType : String := ""
  size : Int := 0
  width : Int := 0
  height : Int := 0
  duration : Int := 0
  takenAt : GoTime := GoTime.zero
  createdAt : GoTime := GoTime.zero
  modifiedAt : GoTime := GoTime.zero
  deletedAt : Option GoTime := none
  checksum : String := ""
  imageHash : Nat := 0
  duplicateOf : String := ""
  thumbSmall : String := ""
  thumbLarge : String := ""
  metadata : Metadata := {}
  isFavorite : Bool := false
  tags : List String := []
  deriving DecidableEq, Repr

/-- The media bucket, in bucket-iteration order. -/
abbrev Store := List Media

/-- GenerateID hashes the absolute path with SHA-256; the hash is
modelled as an injective encoding of the path. -/
def GenerateID (path : String) : String := path

/-- GetMedia from storage/models.go: fetch the record stored under the
given key, or none. -/
def GetMedia (s : Store) (id : String) : Option Media :=
  s.find? (fun m => m.id == id)

/-- SaveMedia from storage/models.go: `Put` the record under its ID,
replacing an existing record with that key or inserting a fresh one.
The secondary directory/date indexes are not modelled: no claim reads
them. -/
def SaveMedia (s : Store) (m : Media) : Store :=
  if s.any (fun x => x.id == m.id) then
    s.map (fun x => if x.id == m.id then m else x)
  else
    s ++ [m]

/-- ListAllMedia from storage/models.go: every record whose DeletedAt is
nil, in bucket order. -/
def ListAllMedia (s : Store) : List Media :=
  s.filter (fun m => m.deletedAt == none)

/-- FindMediaBySizeRange from storage/models.go: records that are not
soft-deleted and whose size lies in the band
`int64(float64(size)*0.9) .. int64(float64(size)*1.1)`, the float
computation modelled by exact rationals truncated toward zero. -/
def FindMediaBySizeRange (s : Store) (size : Int) : List Media :=
  let minSize : Int := Int.tdiv (9 * size) 10
  let maxSize : Int := Int.tdiv (11 * size) 10
  s.filter (fun m =>
    m.deletedAt == none && decide (minSize ≤ m.size) && decide (m.size ≤ maxSize))

/-- Loop body of hammingDistance from storage/models.go: repeatedly
clear the lowest set bit, counting the iterations. -/
def hammingLoop (x : Nat) : Nat :=
  if h : x = 0 then 0
  else 1 + hammingLoop (x &&& (x - 1))
termination_by x
decreasing_by
  exact Nat.lt_of_le_of_lt Nat.and_le_right (Nat.sub_lt (Nat.pos_of_ne_zero h) Nat.one_pos)

/-- hammingDistance from storage/models.go: popcount of the xor of the
two 64-bit perceptual hashes. -/
def hammingDistance (hash1 hash2 : Nat) : Nat :=
  hammingLoop (hash1 ^^^ hash2)

/-- DuplicateCheckResult from storage/models.go. -/
structure DuplicateCheckResult where
  isDuplicate : Bool := false
  type : String := ""
  existingID : String := ""
  distance : Nat := 0
  deriving DecidableEq, Repr

/-- The predicate the similarity loop of CheckDuplicate applies to each
candidate: a nonzero stored hash within the threshold. -/
def similarPred (imageHash : Nat) (similarityThreshold : Nat) (m : Media) : Bool :=
  m.imageHash != 0 && decide (hammingDistance imageHash m.imageHash ≤ similarityThreshold)

/-- CheckDuplicate from storage/models.go: first the exact tier (size
band plus checksum), then the perceptual tier over every live record. -/
def CheckDuplicate (s : Store) (size : Int) (checksum : String)
    (imageHash : Nat) (isImage : Bool) (similarityThreshold : Nat) :
    DuplicateCheckResult :=
  let exactHit : Option Media :=
    if checksum != "" then
      (FindMediaBySizeRange s size).find? (fun m => m.checksum == checksum)
    else
      none
  match exactHit with
  | some m => { isDuplicate := true, type := "exact", existingID := m.id, distance := 0 }
  | none =>
    if isImage && imageHash != 0 then
      match (ListAllMedia s).find? (similarPred imageHash similarityThreshold) with
      | some m =>
        { isDuplicate := true
          type := "similar"
          existingID := m.id
          distance := hammingDistance imageHash m.imageHash }
      | none => {}
    else
      {}

/-- SoftDeleteMedia from storage/models.go: look the record up, fail if
absent, otherwise store it back with DeletedAt set to the current time. -/
def SoftDeleteMedia (s : Store) (id : String) (now : GoTime) : Except String Store :=
  match GetMedia s id with
  | none => .error "media not found"
  | some m => .ok (SaveMedia s { m with deletedAt := some now })

/-- RestoreMedia from storage/models.go: look the record up, fail if
absent, succeed without writing if it is not soft-deleted, otherwise
store it back with DeletedAt cleared. -/
def RestoreMedia (s : Store) (id : String) : Except String Store :=
  match GetMedia s id with
  | none => .error "media not found"
  | some m =>
    if m.deletedAt = none then .ok s
    else .ok (SaveMedia s { m with deletedAt := none })

/-- One file met by the directory walk of Scanner.scan, together with
the results of the filesystem reads the scanner performs on it: the
stat data, the SHA-256 of the current bytes, the perceptual hash of the
current bytes (0 when decoding fails or the file is not an image), and
the EXIF extraction results. -/
structure FileEntry where
  path : String
  relPath : String := ""
  dir : String := ""
  filename : String := ""
  ext : String := ""
  mediaType : MediaType := .image
  mimeType : String := ""
  size : Int := 0
  modTime : GoTime := GoTime.zero
  fileChecksum : String := ""
  fileImageHash : Nat := 0
  metaTakenAt : GoTime := GoTime.zero
  metaData : Metadata := {}
  metaWidth : Int := 0
  metaHeight : Int := 0
  deriving DecidableEq, Repr

/-- Scan progress counters incremented by one file (NewFiles,
UpdatedFiles, SkippedDuplicates from ScanProgress). -/
structure ScanCounters where
  newFiles : Nat := 0
  updatedFiles : Nat := 0
  skippedDuplicates : Nat := 0
  deriving DecidableEq, Repr

/-- Result of processing one file: the store states after each write in
order, the final store, and the counter increments. -/
structure StepResult where
  trace : List Store
  final : Store
  counters : ScanCounters
  deriving DecidableEq, Repr

/-- Step result when the scanner skips the file without touching the
store. -/
def noopStep (s : Store) : StepResult :=
  { trace := [], final := s, counters := {} }

/-- The scanner treats images and raw files alike when hashing and
checking duplicates. -/
def mediaIsImage (t : MediaType) : Bool :=
  t == .image || t == .raw

/-- The record literal Scanner.scan builds for a walked file before the
carry-over, metadata and hashing blocks run. -/
def buildMedia (f : FileEntry) (now : GoTime) : Media :=
  { id := GenerateID f.path
    path := f.path
    relPath := f.relPath
    dir := f.dir
    filename := f.filename
    ext := f.ext
    type := f.mediaType
    mimeType := f.mimeType
    size := f.size
    modifiedAt := f.modTime
    createdAt := now }

/-- Carry-over block of Scanner.scan: preserve the listed fields of the
existing record, and keep the stored date and metadata when a plausible
TakenAt is already present. -/
def carryExisting (e : Media) (media : Media) : Media :=
  let media := { media with
    createdAt := e.createdAt
    isFavorite := e.isFavorite
    tags := e.tags
    thumbSmall := e.thumbSmall
    thumbLarge := e.thumbLarge
    checksum := e.checksum
    imageHash := e.imageHash }
  if 1900 < e.takenAt.year then
    { media with takenAt := e.takenAt, metadata := e.metadata }
  else
    media

/-- ExtractMetadata applied to a fresh record: the EXIF fields read from
the file are written into the record. -/
def applyExtractMetadata (f : FileEntry) (media : Media) : Media :=
  { media with
    takenAt := f.metaTakenAt
    metadata := f.metaData
    width := f.metaWidth
    height := f.metaHeight }

/-- Hashing block of Scanner.scan: when the record carries no checksum,
CalculateHashes fills in the SHA-256 of the file and, for images, the
perceptual hash. -/
def applyHashes (f : FileEntry) (isImg : Bool) (media : Media) : Media :=
  if media.checksum = "" then
    { media with
      checksum := f.fileChecksum
      imageHash := if isImg then f.fileImageHash else 0 }
  else
    media

/-- The fully prepared record for a brand-new file: build, extract
metadata for images and raw files, then hash. -/
def newFileMedia (f : FileEntry) (now : GoTime) : Media :=
  let media := buildMedia f now
  let media := if mediaIsImage f.mediaType then applyExtractMetadata f media else media
  applyHashes f (mediaIsImage f.mediaType) media

/-- Processing of a single walked file by Scanner.scan: skip records in
the trash and unchanged files; rebuild and save changed files, carrying
the listed fields; for brand-new files run the duplicate check first
and, on a hit, save the record marked DuplicateOf and then soft-delete
it (the error of the soft delete is ignored by the scanner). -/
def scanStep (s : Store) (f : FileEntry) (now : GoTime) : StepResult :=
  match GetMedia s (GenerateID f.path) with
  | some e =>
    if e.deletedAt != none then
      noopStep s
    else if e.modifiedAt == f.modTime && e.size == f.size then
      noopStep s
    else
      let media := applyHashes f (mediaIsImage f.mediaType) (carryExisting e (buildMedia f now))
      let s1 := SaveMedia s media
      { trace := [s1], final := s1, counters := { updatedFiles := 1 } }
  | none =>
    let media := newFileMedia f now
    let dup := CheckDuplicate s media.size media.checksum media.imageHash (mediaIsImage f.mediaType) 10
    if dup.isDuplicate then
      let dupMedia := { media with duplicateOf := dup.existingID }
      let s1 := SaveMedia s dupMedia
      let s2 := match SoftDeleteMedia s1 dupMedia.id now with
        | .ok s2 => s2
        | .error _ => s1
      { trace := [s1, s2], final := s2, counters := { skippedDuplicates := 1 } }
    else
      let s1 := SaveMedia s media
      { trace := [s1], final := s1, counters := { newFiles := 1 } }

/-- Pointwise sum of counters. -/
def addCounters (a b : ScanCounters) : ScanCounters :=
  { newFiles := a.newFiles + b.newFiles
    updatedFiles := a.updatedFiles + b.updatedFiles
    skippedDuplicates := a.skippedDuplicates + b.skippedDuplicates }

/-- A whole scan pass: fold scanStep over the walked files in walk
order, accumulating the counters. -/
def scanFiles (s : Store) (fs : List FileEntry) (now : GoTime) : Store × ScanCounters :=
  match fs with
  | [] => (s, {})
  | f :: rest =>
    let r := scanStep s f now
    let rest2 := scanFiles r.final rest now
    (rest2.1, addCounters r.counters rest2.2)

/-- Task from the worker package; only the fields the thumbnail flow
reads are carried. -/
structure Task where
  id : String := ""
  mediaID : String := ""
  size : String := ""
  deriving DecidableEq, Repr

/-- State of the worker pool: whether Stop has run (context cancelled
and the intake channel closed), the buffered task queue with its
capacity, and the two statistics counters Submit touches. -/
structure PoolState where
  stopped : Bool := false
  queue : List Task := []
  capacity : Nat := 1000
  totalTasks : Int := 0
  queuedTasks : Int := 0
  deriving DecidableEq, Repr

/-- Stop from the worker pool: cancel the context and close the intake
channel; the drain of the workers is not modelled. -/
def Stop (p : PoolState) : PoolState :=
  { p with stopped := true }

/-- Possible outcomes of one call to Pool.Submit. -/
inductive SubmitOutcome where
  | accepted (p : PoolState)
  | rejectedFull
  | rejectedStopped
  | crashSendOnClosed
  deriving DecidableEq, Repr

/-- Submit from the worker pool, as the set of outcomes its select
statement admits.  While the pool is running, the context-done case is
not ready, the send case is ready exactly when the buffered queue has
room, and the default case fires otherwise, so the outcome is a
singleton.  After Stop has run, the context-done case is ready and the
send case is a send on a closed channel, which is also ready and panics
when chosen; the Go runtime picks between ready cases pseudorandomly,
so both outcomes are possible. -/
def Submit (p : PoolState) (t : Task) : List SubmitOutcome :=
  if p.stopped then
    [.rejectedStopped, .crashSendOnClosed]
  else if p.queue.length < p.capacity then
    [.accepted { p with
      queue := p.queue ++ [t]
      totalTasks := p.totalTasks + 1
      queuedTasks := p.queuedTasks + 1 }]
  else
    [.rejectedFull]

/-- Submit specialised to a running pool, where its select is
deterministic; the thumbnail service is only used with a started,
unstopped pool. -/
def SubmitRun (p : PoolState) (t : Task) : PoolState × Bool :=
  if p.queue.length < p.capacity then
    ({ p with
      queue := p.queue ++ [t]
      totalTasks := p.totalTasks + 1
      queuedTasks := p.queuedTasks + 1 }, true)
  else
    (p, false)

/-- In-process maps of the thumbnail service: the set of in-flight
(media,size) keys and the map from permanently failed keys to their
error message. -/
structure ThumbState where
  processing : List String := []
  failedKeys : List (String × String) := []
  deriving DecidableEq, Repr

/-- Key under which a (mediaID, size) pair is tracked. -/
def thumbKey (mediaID size : String) : String :=
  mediaID ++ ":" ++ size

/-- Check of the failed map. -/
def hasFailed (st : ThumbState) (key : String) : Bool :=
  st.failedKeys.any (fun kv => kv.1 == key)

/-- QueueThumbnail from worker/thumbnail_worker.go: refuse permanently
failed and in-flight pairs, otherwise mark the pair in flight and
submit one task; if the pool rejects the task, unmark the pair and
return false. -/
def QueueThumbnail (st : ThumbState) (p : PoolState) (mediaID size : String) (t : Task) :
    ThumbState × PoolState × Bool :=
  let key := thumbKey mediaID size
  if hasFailed st key then
    (st, p, false)
  else if st.processing.contains key then
    (st, p, false)
  else
    let st1 := { st with processing := key :: st.processing }
    match SubmitRun p t with
    | (p1, true) => (st1, p1, true)
    | (p1, false) => ({ st1 with processing := st1.processing.erase key }, p1, false)

/-- QueueAllThumbnails from worker/thumbnail_worker.go: fire
QueueThumbnail for small, medium and large in that order.  The tasks
for the three classes are supplied by the caller of the model. -/
def QueueAllThumbnails (st : ThumbState) (p : PoolState) (mediaID : String)
    (tSmall tMedium tLarge : Task) : ThumbState × PoolState :=
  let (st1, p1, _) := QueueThumbnail st p mediaID "small" tSmall
  let (st2, p2, _) := QueueThumbnail st1 p1 mediaID "medium" tMedium
  let (st3, p3, _) := QueueThumbnail st2 p2 mediaID "large" tLarge
  (st3, p3)

/-- Prefix test on character lists. -/
def isPrefixChars : List Char → List Char → Bool
  | [], _ => true
  | _ :: _, [] => false
  | a :: as, b :: bs => a == b && isPrefixChars as bs

/-- Substring test on character lists: the needle occurs at some
position of the haystack. -/
def hasSubChars (hay sub : List Char) : Bool :=
  isPrefixChars sub hay ||
    match hay with
    | [] => false
    | _ :: t => hasSubChars t sub

/-- Model of Go strings.Contains. -/
def strContains (s sub : String) : Bool :=
  hasSubChars s.data sub.data

/-- Permanent-failure signatures from isPermanentError in
worker/thumbnail_worker.go. -/
def permanentErrors : List String :=
  ["unknown format", "unsupported media type", "image: unknown format",
   "invalid JPEG", "invalid PNG", "corrupt", "format detection failed",
   "unsupported format:"]

/-- isPermanentError from worker/thumbnail_worker.go: the error text
contains one of the permanent signatures. -/
def isPermanentError (errStr : String) : Bool :=
  permanentErrors.any (fun pe => strContains errStr pe)

/-- markAsFailed from worker/thumbnail_worker.go: record the error in
the failed map and drop the in-flight mark. -/
def markAsFailed (st : ThumbState) (mediaID size errMsg : String) : ThumbState :=
  let key := thumbKey mediaID size
  { processing := st.processing.erase key
    failedKeys := (key, errMsg) :: st.failedKeys.filter (fun kv => kv.1 != key) }

/-- Result of GenerateThumbnail, supplied to the handler as an oracle
for the filesystem and decoder work. -/
inductive GenOutcome where
  | success (thumbPath : String)
  | failure (errMsg : String)
  deriving DecidableEq, Repr

/-- Store and service state after one handler run. -/
structure HandleResult where
  store : Store
  thumbs : ThumbState
  deriving DecidableEq, Repr

/-- handleThumbnail from worker/thumbnail_worker.go: fetch the record;
on a generation failure classify the error and memoize permanent ones;
on success write the path into the field for the size class (the
switch covers small and large only) and save the record.  The deferred
block clears the in-flight mark unless the pair is marked failed. -/
def handleThumbnail (s : Store) (st : ThumbState) (task : Task) (gen : GenOutcome) :
    HandleResult :=
  let key := thumbKey task.mediaID task.size
  let deferClear := fun (st1 : ThumbState) =>
    if hasFailed st1 key then st1
    else { st1 with processing := st1.processing.erase key }
  match GetMedia s task.mediaID with
  | none => { store := s, thumbs := deferClear st }
  | some m =>
    match gen with
    | .failure errMsg =>
      let st1 :=
        if isPermanentError errMsg then markAsFailed st task.mediaID task.size errMsg
        else st
      { store := s, thumbs := deferClear st1 }
    | .success thumbPath =>
      let m1 :=
        if task.size == "small" then { m with thumbSmall := thumbPath }
        else if task.size == "large" then { m with thumbLarge := thumbPath }
        else m
      { store := SaveMedia s m1, thumbs := deferClear st }

/-- One step of the thumbnail service as seen by its clients: either a
QueueThumbnail call or the completion of a generation task. -/
inductive ServiceOp where
  | queue (mediaID size : String) (t : Task)
  | handle (task : Task) (gen : GenOutcome)
  deriving DecidableEq, Repr

/-- Combined state of the store, the service maps and the pool. -/
structure ServiceState where
  store : Store
  thumbs : ThumbState
  pool : PoolState
  deriving DecidableEq, Repr

/-- Apply one service operation. -/
def runOp (σ : ServiceState) : ServiceOp → ServiceState
  | .queue mediaID size t =>
    let (st1, p1, _) := QueueThumbnail σ.thumbs σ.pool mediaID size t
    { σ with thumbs := st1, pool := p1 }
  | .handle task gen =>
    let r := handleThumbnail σ.store σ.thumbs task gen
    { σ with store := r.store, thumbs := r.thumbs }

/-- Apply a sequence of service operations in order. -/
def runOps (σ : ServiceState) : List ServiceOp → ServiceState
  | [] => σ
  | op :: rest => runOps (runOp σ op) rest

/-- GetMedia on the empty store. -/
theorem getMedia_nil (id : String) : GetMedia [] id = none := rfl

/-- GetMedia steps through the head of the bucket. -/
theorem getMedia_cons (x : Media) (t : Store) (id : String) :
    GetMedia (x :: t) id = if x.id == id then some x else GetMedia t id := by
  simp only [GetMedia, List.find?_cons]
  cases h : x.id == id <;> simp [h]

/-- GetMedia finds nothing exactly when no record carries the ID. -/
theorem getMedia_eq_none_iff (s : Store) (id : String) :
    GetMedia s id = none ↔ ∀ m ∈ s, m.id ≠ id := by
  simp [GetMedia, List.find?_eq_none]

/-- A successful GetMedia returns a member of the bucket with the
requested ID. -/
theorem getMedia_some (s : Store) (id : String) (m : Media)
    (h : GetMedia s id = some m) : m ∈ s ∧ m.id = id := by
  refine ⟨List.mem_of_find?_eq_some h, ?_⟩
  have hp := List.find?_some h
  simpa using hp

/-- Replacing an absent key appends. -/
theorem saveMedia_of_not_mem (s : Store) (m : Media)
    (h : ∀ x ∈ s, x.id ≠ m.id) : SaveMedia s m = s ++ [m] := by
  simp only [SaveMedia]
  rw [if_neg]
  simp only [List.any_eq_true, not_exists]
  intro x
  rw [not_and]
  intro hx
  simp [h x hx]

/-- Replacing a present key maps the replacement over the bucket. -/
theorem saveMedia_of_any (s : Store) (m : Media)
    (h : s.any (fun x => x.id == m.id) = true) :
    SaveMedia s m = s.map (fun x => if x.id == m.id then m else x) := by
  simp only [SaveMedia, if_pos h]

/-- Replacement does not move a key that no record carries. -/
theorem map_replace_of_no_id (t : Store) (m' : Media)
    (h : ∀ y ∈ t, y.id ≠ m'.id) :
    t.map (fun x => if x.id == m'.id then m' else x) = t := by
  induction t with
  | nil => rfl
  | cons x t ih =>
    have hx : (x.id == m'.id) = false := beq_eq_false_iff_ne.mpr (h x (by simp))
    simp only [List.map_cons, hx, Bool.false_eq_true, if_false,
      ih (fun y hy => h y (List.mem_cons_of_mem x hy))]

/-- After SaveMedia the saved record is stored under its ID. -/
theorem getMedia_saveMedia_same (s : Store) (m : Media) :
    GetMedia (SaveMedia s m) m.id = some m := by
  by_cases hany : s.any (fun x => x.id == m.id) = true
  · rw [saveMedia_of_any s m hany]
    induction s with
    | nil => simp at hany
    | cons x t ih =>
      simp only [List.any_cons, Bool.or_eq_true] at hany
      by_cases hx : x.id = m.id
      · simp [getMedia_cons, hx]
      · have hx' : (x.id == m.id) = false := beq_eq_false_iff_ne.mpr hx
        have ht : t.any (fun x => x.id == m.id) = true := by
          rcases hany with h1 | h2
          · rw [hx'] at h1; cases h1
          · exact h2
        simp only [List.map_cons, getMedia_cons, hx', Bool.false_eq_true, if_false]
        exact ih ht
  · have h : ∀ x ∈ s, x.id ≠ m.id := by
      intro x hx he
      exact hany (List.any_eq_true.mpr ⟨x, hx, beq_iff_eq.mpr he⟩)
    rw [saveMedia_of_not_mem s m h]
    have hnone : GetMedia s m.id = none := (getMedia_eq_none_iff s m.id).mpr h
    simp only [GetMedia] at hnone ⊢
    rw [List.find?_append, hnone]
    simp

/-- SaveMedia leaves every other key untouched. -/
theorem getMedia_saveMedia_ne (s : Store) (m : Media) (id : String)
    (h : id ≠ m.id) : GetMedia (SaveMedia s m) id = GetMedia s id := by
  by_cases hany : s.any (fun x => x.id == m.id) = true
  · rw [saveMedia_of_any s m hany]
    clear hany
    induction s with
    | nil => rfl
    | cons x t ih =>
      by_cases hx : x.id = m.id
      · have hx' : (x.id == m.id) = true := beq_iff_eq.mpr hx
        have hmid : (m.id == id) = false :=
          beq_eq_false_iff_ne.mpr (fun e => h e.symm)
        have hxid : (x.id == id) = false :=
          beq_eq_false_iff_ne.mpr (by rw [hx]; exact fun e => h e.symm)
        simp only [List.map_cons, hx', if_true, getMedia_cons, hmid, hxid,
          Bool.false_eq_true, if_false, ih]
      · have hx' : (x.id == m.id) = false := beq_eq_false_iff_ne.mpr hx
        simp only [List.map_cons, hx', Bool.false_eq_true, if_false,
          getMedia_cons, ih]
  · have hmem : ∀ x ∈ s, x.id ≠ m.id := by
      intro x hx he
      exact hany (List.any_eq_true.mpr ⟨x, hx, beq_iff_eq.mpr he⟩)
    rw [saveMedia_of_not_mem s m hmem]
    simp only [GetMedia]
    rw [List.find?_append]
    have : List.find? (fun x => x.id == id) [m] = none := by
      simp [List.find?_cons, beq_eq_false_iff_ne.mpr (fun e => h e.symm)]
    rw [this]
    simp

/-- Replacing a record by a same-ID variant and then replacing it back
restores the bucket, provided the bucket keys are unique and the
original record is the one stored under its key. -/
theorem saveMedia_roundtrip (s : Store) (m m' : Media)
    (hid : m'.id = m.id)
    (hnd : (s.map Media.id).Nodup)
    (hfind : GetMedia s m.id = some m) :
    SaveMedia (SaveMedia s m') m = s := by
  have hmem : m ∈ s := (getMedia_some s m.id m hfind).1
  have hany1 : s.any (fun x => x.id == m'.id) = true :=
    List.any_eq_true.mpr ⟨m, hmem, by rw [hid]; exact beq_self_eq_true m.id⟩
  rw [saveMedia_of_any s m' hany1]
  have hany2 : (s.map (fun x => if x.id == m'.id then m' else x)).any
      (fun x => x.id == m.id) = true := by
    refine List.any_eq_true.mpr ⟨m', List.mem_map.mpr ⟨m, hmem, ?_⟩, by rw [hid]; exact beq_self_eq_true m.id⟩
    rw [if_pos (by rw [hid]; exact beq_self_eq_true m.id)]
  rw [saveMedia_of_any _ m hany2]
  clear hany1 hany2 hmem
  induction s with
  | nil => cases hfind
  | cons x t ih =>
    by_cases hx : x.id = m.id
    · have hxm : x = m := by
        rw [getMedia_cons, if_pos (beq_iff_eq.mpr hx)] at hfind
        exact (Option.some.injEq x m).mp hfind
      have hx1 : (x.id == m'.id) = true := beq_iff_eq.mpr (hid.symm ▸ hx)
      have hm2 : (m'.id == m.id) = true := beq_iff_eq.mpr hid
      have hnot : ∀ y ∈ t, y.id ≠ m'.id := by
        intro y hy he
        have hmm : x.id ∈ t.map Media.id := by
          rw [hx, ← hid, ← he]
          exact List.mem_map.mpr ⟨y, hy, rfl⟩
        simp only [List.map_cons, List.nodup_cons] at hnd
        exact hnd.1 hmm
      have hnot2 : ∀ y ∈ t, y.id ≠ m.id := by
        intro y hy
        rw [← hid]
        exact hnot y hy
      simp only [List.map_cons]
      rw [if_pos hx1]
      rw [if_pos hm2]
      rw [map_replace_of_no_id t m' hnot]
      rw [map_replace_of_no_id t m hnot2]
      rw [← hxm]
    · have hx1 : (x.id == m'.id) = false :=
        beq_eq_false_iff_ne.mpr (hid.symm ▸ hx)
      have hx2 : (x.id == m.id) = false := beq_eq_false_iff_ne.mpr hx
      have hfind' : GetMedia t m.id = some m := by
        rw [getMedia_cons, if_neg (by simp [hx2])] at hfind
        exact hfind
      simp only [List.map_cons, List.nodup_cons] at hnd
      simp only [List.map_cons, hx1, hx2, Bool.false_eq_true, if_false]
      rw [ih hnd.2 hfind']

/-- C10: SoftDeleteMedia stores the record back with only DeletedAt
changed, to the current time, and leaves every other key untouched;
RestoreMedia on a soft-deleted record stores it back with only
DeletedAt cleared; RestoreMedia on a live record succeeds without
writing; both operations fail with an error and no write when the ID
is absent; and for a live record in a bucket with unique keys the
round trip soft delete then restore reproduces the store, hence the
record, exactly. -/
theorem C10_soft_delete_restore (s : Store) (id : String) (now : GoTime) :
    (∀ m, GetMedia s id = some m →
        SoftDeleteMedia s id now = .ok (SaveMedia s { m with deletedAt := some now }) ∧
        GetMedia (SaveMedia s { m with deletedAt := some now }) id =
          some { m with deletedAt := some now } ∧
        ∀ other, other ≠ id →
          GetMedia (SaveMedia s { m with deletedAt := some now }) other = GetMedia s other) ∧
    (∀ m t, GetMedia s id = some m → m.deletedAt = some t →
        RestoreMedia s id = .ok (SaveMedia s { m with deletedAt := none }) ∧
        GetMedia (SaveMedia s { m with deletedAt := none }) id =
          some { m with deletedAt := none } ∧
        ∀ other, other ≠ id →
          GetMedia (SaveMedia s { m with deletedAt := none }) other = GetMedia s other) ∧
    (∀ m, GetMedia s id = some m → m.deletedAt = none → RestoreMedia s id = .ok s) ∧
    (GetMedia s id = none →
        SoftDeleteMedia s id now = .error "media not found" ∧
        RestoreMedia s id = .error "media not found") ∧
    (∀ m, (s.map Media.id).Nodup → GetMedia s id = some m → m.deletedAt = none →
        ∃ s1, SoftDeleteMedia s id now = .ok s1 ∧ RestoreMedia s1 id = .ok s) := by
  refine ⟨?_, ?_, ?_, ?_, ?_⟩
  · intro m h
    have hid : m.id = id := (getMedia_some s id m h).2
    refine ⟨by simp only [SoftDeleteMedia, h], ?_, ?_⟩
    · rw [← hid]
      exact getMedia_saveMedia_same s { m with deletedAt := some now }
    · intro other hother
      exact getMedia_saveMedia_ne s { m with deletedAt := some now } other
        (by rw [show ({ m with deletedAt := some now } : Media).id = m.id from rfl, hid]; exact hother)
  · intro m t h ht
    have hid : m.id = id := (getMedia_some s id m h).2
    refine ⟨?_, ?_, ?_⟩
    · simp only [RestoreMedia, h]
      rw [if_neg (by simp [ht])]
    · rw [← hid]
      exact getMedia_saveMedia_same s { m with deletedAt := none }
    · intro other hother
      exact getMedia_saveMedia_ne s { m with deletedAt := none } other
        (by rw [show ({ m with deletedAt := none } : Media).id = m.id from rfl, hid]; exact hother)
  · intro m h hdel
    simp only [RestoreMedia, h]
    rw [if_pos hdel]
  · intro h
    exact ⟨by simp only [SoftDeleteMedia, h], by simp only [RestoreMedia, h]⟩
  · intro m hnd h hdel
    have hid : m.id = id := (getMedia_some s id m h).2
    refine ⟨SaveMedia s { m with deletedAt := some now }, by simp only [SoftDeleteMedia, h], ?_⟩
    have hget : GetMedia (SaveMedia s { m with deletedAt := some now }) id =
        some { m with deletedAt := some now } := by
      rw [← hid]
      exact getMedia_saveMedia_same s { m with deletedAt := some now }
    simp only [RestoreMedia, hget]
    rw [if_neg (by simp)]
    have hback : ({ { m with deletedAt := some now } with deletedAt := none } : Media) = m := by
      cases m
      simp only at hdel
      simp only [hdel]
    rw [hback]
    rw [saveMedia_roundtrip s m { m with deletedAt := some now } rfl hnd (hid ▸ h)]

/-- Concrete live record used by the C10 witness. -/
def exLive : Media := { id := "b", path := "b" }

/-- Witness for C10: on the one-record store the round-trip clause of
the theorem applies and reproduces the store. -/
theorem C10_witness :
    ∃ s1, SoftDeleteMedia [exLive] "b" ⟨2024, 1⟩ = .ok s1 ∧
      RestoreMedia s1 "b" = .ok [exLive] :=
  (C10_soft_delete_restore [exLive] "b" ⟨2024, 1⟩).2.2.2.2 exLive (by decide) rfl rfl

/-- Concrete record already in the trash, used by the C10
counterexample. -/
def exTrash : Media := { id := "a", path := "a", deletedAt := some ⟨2020, 3⟩ }

/-- Counterexample for C10 as stated: on a record whose DeletedAt is
already set, restore after soft delete yields a record whose DeletedAt
is nil, which differs from the original, so the round trip does not
restore every field for such a record. -/
theorem C10_counterexample :
    SoftDeleteMedia [exTrash] "a" ⟨2024, 7⟩ = .ok [{ exTrash with deletedAt := some ⟨2024, 7⟩ }] ∧
    RestoreMedia [{ exTrash with deletedAt := some ⟨2024, 7⟩ }] "a" =
      .ok [{ exTrash with deletedAt := none }] ∧
    ({ exTrash with deletedAt := none } : Media) ≠ exTrash :=
  ⟨rfl, rfl, by decide⟩

/-- Bridge between membership in the size band and the integer bounds
of the claim: for a nonnegative size, the truncated band bounds follow
from the exact rational bounds. -/
theorem mem_sizeRange (s : Store) (size : Int) (m : Media)
    (hsize : 0 ≤ size) (hm : m ∈ s) (hlive : m.deletedAt = none)
    (hlo : 9 * size ≤ 10 * m.size) (hhi : 10 * m.size ≤ 11 * size) :
    m ∈ FindMediaBySizeRange s size := by
  simp only [FindMediaBySizeRange]
  refine List.mem_filter.mpr ⟨hm, ?_⟩
  have h1 : Int.tdiv (9 * size) 10 ≤ m.size := by
    rw [Int.tdiv_eq_ediv (by positivity) (by norm_num)]
    omega
  have h2 : m.size ≤ Int.tdiv (11 * size) 10 := by
    rw [Int.tdiv_eq_ediv (by positivity) (by norm_num)]
    omega
  simp [hlive, h1, h2]

/-- Unpacking of membership in the size band. -/
theorem of_mem_sizeRange (s : Store) (size : Int) (m : Media)
    (hsize : 0 ≤ size) (hm : m ∈ FindMediaBySizeRange s size) :
    m ∈ s ∧ m.deletedAt = none ∧
      9 * size ≤ 10 * m.size + 9 ∧ 10 * m.size ≤ 11 * size := by
  simp only [FindMediaBySizeRange] at hm
  have hm' := List.mem_filter.mp hm
  obtain ⟨hmem, hpred⟩ := hm'
  simp only [Bool.and_eq_true, beq_iff_eq, decide_eq_true_eq] at hpred
  obtain ⟨⟨hdel, h1⟩, h2⟩ := hpred
  rw [Int.tdiv_eq_ediv (by positivity) (by norm_num)] at h1
  rw [Int.tdiv_eq_ediv (by positivity) (by norm_num)] at h2
  exact ⟨hmem, hdel, by omega, by omega⟩

/-- C1: with a non-empty checksum, whenever some live record has a size
inside the ±10 percent band of the probed size and carries the same
checksum, CheckDuplicate reports an exact duplicate of such a record at
distance 0, and the verdict is independent of the perceptual inputs, so
the exact tier settles the call before any perceptual comparison. -/
theorem C1_exact_tier (s : Store) (size : Int) (checksum : String)
    (imageHash : Nat) (isImage : Bool) (th : Nat)
    (hsize : 0 ≤ size) (hck : checksum ≠ "")
    (e : Media) (he : e ∈ s) (hlive : e.deletedAt = none)
    (hlo : 9 * size ≤ 10 * e.size) (hhi : 10 * e.size ≤ 11 * size)
    (hcs : e.checksum = checksum) :
    ∃ w, w ∈ s ∧ w.deletedAt = none ∧ w.checksum = checksum ∧
      9 * size ≤ 10 * w.size + 9 ∧ 10 * w.size ≤ 11 * size ∧
      CheckDuplicate s size checksum imageHash isImage th =
        { isDuplicate := true, type := "exact", existingID := w.id, distance := 0 } ∧
      ∀ ih im t, CheckDuplicate s size checksum ih im t =
        CheckDuplicate s size checksum imageHash isImage th := by
  have hmemf : e ∈ FindMediaBySizeRange s size :=
    mem_sizeRange s size e hsize he hlive hlo hhi
  have hsome : ((FindMediaBySizeRange s size).find? (fun m => m.checksum == checksum)).isSome :=
    List.find?_isSome.mpr ⟨e, hmemf, beq_iff_eq.mpr hcs⟩
  obtain ⟨w, hw⟩ := Option.isSome_iff_exists.mp hsome
  have hwmem := List.mem_of_find?_eq_some hw
  have hwp := List.find?_some hw
  have hwck : w.checksum = checksum := by simpa using hwp
  obtain ⟨hw_s, hw_live, hw_lo, hw_hi⟩ := of_mem_sizeRange s size w hsize hwmem
  have hbne : (checksum != "") = true := bne_iff_ne.mpr hck
  refine ⟨w, hw_s, hw_live, hwck, hw_lo, hw_hi, ?_, ?_⟩
  · simp only [CheckDuplicate, hbne, if_true, hw]
  · intro ih im t
    simp only [CheckDuplicate, hbne, if_true, hw]

/-- Concrete record used by the C1 witness. -/
def exDupTarget : Media := { id := "w", path := "w", size := 100, checksum := "c" }

/-- Witness for C1: on a one-record store with a matching checksum the
exact verdict is produced. -/
theorem C1_witness :
    CheckDuplicate [exDupTarget] 100 "c" 0 false 10 =
      { isDuplicate := true, type := "exact", existingID := "w", distance := 0 } := by
  obtain ⟨w, hw_mem, -, -, -, -, hres, -⟩ :=
    C1_exact_tier [exDupTarget] 100 "c" 0 false 10 (by decide) (by decide)
      exDupTarget (by decide) rfl (by decide) (by decide) rfl
  have hwe : w = exDupTarget := by
    cases hw_mem with
    | head => rfl
    | tail _ h => cases h
  rw [hres, hwe]
  rfl

/-- C2: when the exact tier has no match (no record in the size band
carries the probed checksum) and the probe is an image with a nonzero
perceptual hash, the first live record with a nonzero stored hash
within the threshold is reported as a similar duplicate with its actual
Hamming distance; if no live record with a nonzero stored hash lies
within the threshold there is no verdict, regardless of size; and a
zero probe hash or a non-image probe never produces a similar verdict. -/
theorem C2_similar_tier (s : Store) (size : Int) (checksum : String)
    (imageHash : Nat) (th : Nat)
    (hnoexact : ∀ m ∈ FindMediaBySizeRange s size, m.checksum ≠ checksum)
    (hh : imageHash ≠ 0) :
    (∀ w, (ListAllMedia s).find? (similarPred imageHash th) = some w →
        w ∈ s ∧ w.deletedAt = none ∧ w.imageHash ≠ 0 ∧
        hammingDistance imageHash w.imageHash ≤ th ∧
        CheckDuplicate s size checksum imageHash true th =
          { isDuplicate := true, type := "similar", existingID := w.id,
            distance := hammingDistance imageHash w.imageHash }) ∧
    ((∀ m ∈ s, m.deletedAt = none → m.imageHash ≠ 0 →
        th < hammingDistance imageHash m.imageHash) →
      CheckDuplicate s size checksum imageHash true th = {}) ∧
    (∀ s2 sz ck t ih, (CheckDuplicate s2 sz ck 0 true t).type ≠ "similar" ∧
        (CheckDuplicate s2 sz ck ih false t).type ≠ "similar") := by
  have hexact : (if (checksum != "") = true then
      (FindMediaBySizeRange s size).find? (fun m => m.checksum == checksum)
    else none) = none := by
    by_cases hc : (checksum != "") = true
    · rw [if_pos hc]
      exact List.find?_eq_none.mpr (fun m hm => by
        simp only [beq_iff_eq]
        exact hnoexact m hm)
    · rw [if_neg hc]
  have hbne : (imageHash != 0) = true := bne_iff_ne.mpr hh
  refine ⟨?_, ?_, ?_⟩
  · intro w hw
    have hwmem := List.mem_of_find?_eq_some hw
    have hwpred := List.find?_some hw
    simp only [ListAllMedia, List.mem_filter, beq_iff_eq] at hwmem
    simp only [similarPred, Bool.and_eq_true, bne_iff_ne, decide_eq_true_eq] at hwpred
    refine ⟨hwmem.1, hwmem.2, hwpred.1, hwpred.2, ?_⟩
    simp only [CheckDuplicate, hexact, Bool.true_and, hbne, if_true, hw]
  · intro hfar
    have hnone : (ListAllMedia s).find? (similarPred imageHash th) = none := by
      refine List.find?_eq_none.mpr (fun m hm => ?_)
      simp only [ListAllMedia, List.mem_filter, beq_iff_eq] at hm
      simp only [similarPred, Bool.and_eq_true, bne_iff_ne, decide_eq_true_eq, not_and]
      intro hnz hle
      exact absurd hle (Nat.not_le.mpr (hfar m hm.1 hm.2 hnz))
    simp only [CheckDuplicate, hexact, Bool.true_and, hbne, if_true, hnone]
  · intro s2 sz ck t ih
    constructor
    · simp only [CheckDuplicate]
      split
      · simp
      · simp only [show ((0 : Nat) != 0) = false from rfl, Bool.and_false,
          Bool.false_eq_true, if_false]
        decide
    · simp only [CheckDuplicate]
      split
      · simp
      · simp only [Bool.false_and, Bool.false_eq_true, if_false]
        decide

/-- Concrete live record with a stored perceptual hash, used by the C2
witness. -/
def exSimTarget : Media :=
  { id := "v", path := "v", size := 50, checksum := "zz", imageHash := 5 }

/-- Witness for C2: a probe hash at Hamming distance 2 from the stored
hash of the only record is reported as a similar duplicate with that
distance. -/
theorem C2_witness :
    CheckDuplicate [exSimTarget] 999 "qq" 6 true 10 =
      { isDuplicate := true, type := "similar", existingID := "v",
        distance := hammingDistance 6 5 } := by
  have hdist : hammingDistance 6 5 = 2 := by
    rw [hammingDistance]
    rw [show (6 : Nat) ^^^ 5 = 3 from by decide]
    rw [hammingLoop, dif_neg (by decide)]
    rw [show (3 : Nat) &&& (3 - 1) = 2 from by decide]
    rw [hammingLoop, dif_neg (by decide)]
    rw [show (2 : Nat) &&& (2 - 1) = 0 from by decide]
    rw [hammingLoop, dif_pos rfl]
  have hpred : similarPred 6 10 exSimTarget = true := by
    simp [similarPred, exSimTarget, hdist]
  have hfind : (ListAllMedia [exSimTarget]).find? (similarPred 6 10) = some exSimTarget := by
    rw [show ListAllMedia [exSimTarget] = [exSimTarget] from rfl]
    simp [List.find?_cons, hpred]
  have h := (C2_similar_tier [exSimTarget] 999 "qq" 6 10
    (by decide) (by decide)).1 exSimTarget hfind
  exact h.2.2.2.2

/-- Identity of the record the scanner rebuilds for a changed file. -/
theorem rebuiltMedia_fields (f : FileEntry) (now : GoTime) (e : Media) :
    (applyHashes f (mediaIsImage f.mediaType) (carryExisting e (buildMedia f now))).id =
      GenerateID f.path ∧
    (applyHashes f (mediaIsImage f.mediaType) (carryExisting e (buildMedia f now))).modifiedAt =
      f.modTime ∧
    (applyHashes f (mediaIsImage f.mediaType) (carryExisting e (buildMedia f now))).size =
      f.size := by
  refine ⟨?_, ?_, ?_⟩ <;>
  · simp only [applyHashes, carryExisting, buildMedia]
    split <;> split <;> rfl

/-- Identity of the record built for a brand-new file. -/
theorem newFileMedia_fields (f : FileEntry) (now : GoTime) :
    (newFileMedia f now).id = GenerateID f.path ∧
    (newFileMedia f now).modifiedAt = f.modTime ∧
    (newFileMedia f now).size = f.size ∧
    (newFileMedia f now).deletedAt = none := by
  refine ⟨?_, ?_, ?_, ?_⟩ <;>
  · simp only [newFileMedia, applyHashes, applyExtractMetadata, buildMedia]
    split <;> split <;> rfl

/-- A file whose stored record is in the trash or unchanged is skipped
without touching the store or the counters. -/
theorem scanStep_skip (s : Store) (f : FileEntry) (now : GoTime) (e : Media)
    (h : GetMedia s (GenerateID f.path) = some e)
    (hcond : e.deletedAt ≠ none ∨ (e.modifiedAt = f.modTime ∧ e.size = f.size)) :
    scanStep s f now = noopStep s := by
  simp only [scanStep, h]
  by_cases hd : e.deletedAt = none
  · have hd' : (e.deletedAt != none) = false := by simp [hd]
    obtain hdel | ⟨hm, hs⟩ := hcond
    · exact absurd hd hdel
    · rw [hd']
      simp only [Bool.false_eq_true, if_false]
      rw [if_pos (by simp [hm, hs])]
  · rw [if_pos (by simp [hd])]

/-- The record the scanner leaves for a file needs no further work: it
is either in the trash or matches the stat data of the file. -/
def Settled (s : Store) (f : FileEntry) : Prop :=
  ∃ r, GetMedia s (GenerateID f.path) = some r ∧
    (r.deletedAt ≠ none ∨ (r.modifiedAt = f.modTime ∧ r.size = f.size))

/-- A settled file makes scanStep a no-op. -/
theorem scanStep_of_settled (s : Store) (f : FileEntry) (now : GoTime)
    (h : Settled s f) : scanStep s f now = noopStep s := by
  obtain ⟨r, hr, hcond⟩ := h
  exact scanStep_skip s f now r hr hcond

/-- After processing a file, that file is settled. -/
theorem scanStep_settles (s : Store) (f : FileEntry) (now : GoTime) :
    Settled (scanStep s f now).final f := by
  cases h : GetMedia s (GenerateID f.path) with
  | some e =>
    by_cases hd : e.deletedAt = none
    · by_cases hchg : e.modifiedAt = f.modTime ∧ e.size = f.size
      · rw [scanStep_skip s f now e h (Or.inr hchg)]
        exact ⟨e, h, Or.inr hchg⟩
      · have hd' : (e.deletedAt != none) = false := by simp [hd]
        have hc' : (e.modifiedAt == f.modTime && e.size == f.size) = false := by
          rcases not_and_or.mp hchg with hm | hs
          · simp [beq_eq_false_iff_ne.mpr hm]
          · simp [beq_eq_false_iff_ne.mpr hs]
        simp only [scanStep, h, hd', hc', Bool.false_eq_true, if_false]
        obtain ⟨hid, hmod, hsz⟩ := rebuiltMedia_fields f now e
        refine ⟨_, ?_, Or.inr ⟨hmod, hsz⟩⟩
        rw [← hid]
        exact getMedia_saveMedia_same s _
    · rw [scanStep_skip s f now e h (Or.inl hd)]
      exact ⟨e, h, Or.inl hd⟩
  | none =>
    obtain ⟨hid, hmod, hsz, hdel⟩ := newFileMedia_fields f now
    simp only [scanStep, h]
    split
    · -- duplicate branch: the saved record is then soft-deleted
      set media := newFileMedia f now with hmedia
      set dup := CheckDuplicate s media.size media.checksum media.imageHash
        (mediaIsImage f.mediaType) 10 with hdup
      have hget1 := getMedia_saveMedia_same s { media with duplicateOf := dup.existingID }
      have hsoft : SoftDeleteMedia (SaveMedia s { media with duplicateOf := dup.existingID })
          ({ media with duplicateOf := dup.existingID } : Media).id now =
          .ok (SaveMedia (SaveMedia s { media with duplicateOf := dup.existingID })
            { { media with duplicateOf := dup.existingID } with deletedAt := some now }) := by
        simp only [SoftDeleteMedia, hget1]
      simp only [hsoft]
      refine ⟨{ { media with duplicateOf := dup.existingID } with deletedAt := some now },
        ?_, Or.inl (by simp)⟩
      rw [← show ({ { media with duplicateOf := dup.existingID } with
        deletedAt := some now } : Media).id = GenerateID f.path from hid]
      exact getMedia_saveMedia_same _ _
    · refine ⟨newFileMedia f now, ?_, Or.inr ⟨hmod, hsz⟩⟩
      rw [← hid]
      exact getMedia_saveMedia_same s _

/-- Processing a file only ever writes under the ID of that file, so
every other key reads back unchanged. -/
theorem scanStep_other_key (s : Store) (f : FileEntry) (now : GoTime) (id : String)
    (hne : id ≠ GenerateID f.path) :
    GetMedia (scanStep s f now).final id = GetMedia s id := by
  cases h : GetMedia s (GenerateID f.path) with
  | some e =>
    by_cases hd : e.deletedAt = none
    · by_cases hchg : e.modifiedAt = f.modTime ∧ e.size = f.size
      · rw [scanStep_skip s f now e h (Or.inr hchg)]
        rfl
      · have hd' : (e.deletedAt != none) = false := by simp [hd]
        have hc' : (e.modifiedAt == f.modTime && e.size == f.size) = false := by
          rcases not_and_or.mp hchg with hm | hs
          · simp [beq_eq_false_iff_ne.mpr hm]
          · simp [beq_eq_false_iff_ne.mpr hs]
        simp only [scanStep, h, hd', hc', Bool.false_eq_true, if_false]
        obtain ⟨hid, -, -⟩ := rebuiltMedia_fields f now e
        exact getMedia_saveMedia_ne s _ id (fun he => hne (he.trans hid))
    · rw [scanStep_skip s f now e h (Or.inl hd)]
      rfl
  | none =>
    obtain ⟨hid, -, -, -⟩ := newFileMedia_fields f now
    simp only [scanStep, h]
    split
    · set media := newFileMedia f now with hmedia
      set dup := CheckDuplicate s media.size media.checksum media.imageHash
        (mediaIsImage f.mediaType) 10 with hdup
      have hget1 := getMedia_saveMedia_same s { media with duplicateOf := dup.existingID }
      have hsoft : SoftDeleteMedia (SaveMedia s { media with duplicateOf := dup.existingID })
          ({ media with duplicateOf := dup.existingID } : Media).id now =
          .ok (SaveMedia (SaveMedia s { media with duplicateOf := dup.existingID })
            { { media with duplicateOf := dup.existingID } with deletedAt := some now }) := by
        simp only [SoftDeleteMedia, hget1]
      simp only [hsoft]
      rw [getMedia_saveMedia_ne _ _ id (by exact fun he => hne (he.trans hid))]
      exact getMedia_saveMedia_ne s _ id (fun he => hne (he.trans hid))
    · exact getMedia_saveMedia_ne s _ id (fun he => hne (he.trans hid))

/-- A settled file stays settled while other files are processed. -/
theorem scanFiles_preserve_settled (fs : List FileEntry) (now : GoTime) (f : FileEntry) :
    ∀ s : Store, (∀ g ∈ fs, g.path ≠ f.path) → Settled s f →
      Settled (scanFiles s fs now).1 f := by
  induction fs with
  | nil => intro s _ hs; exact hs
  | cons g rest ih =>
    intro s hne hs
    simp only [scanFiles]
    refine ih _ (fun g2 h2 => hne g2 (List.mem_cons_of_mem g h2)) ?_
    obtain ⟨r, hr, hcond⟩ := hs
    refine ⟨r, ?_, hcond⟩
    rw [scanStep_other_key s g now (GenerateID f.path)
      (fun he => hne g (List.mem_cons_self g rest) (by simpa [GenerateID] using he.symm))]
    exact hr

/-- After one scan pass every walked file is settled, provided the walk
visits pairwise distinct paths. -/
theorem scanFiles_settles_all (fs : List FileEntry) (now : GoTime) :
    ∀ s : Store, fs.Pairwise (fun a b => a.path ≠ b.path) →
      ∀ f ∈ fs, Settled (scanFiles s fs now).1 f := by
  induction fs with
  | nil => intro s _ f hf; cases hf
  | cons g rest ih =>
    intro s hpd f hf
    rw [List.pairwise_cons] at hpd
    cases hf with
    | head =>
      simp only [scanFiles]
      exact scanFiles_preserve_settled rest now g (scanStep s g now).final
        (fun g2 h2 he => hpd.1 g2 h2 he.symm) (scanStep_settles s g now)
    | tail _ hmem =>
      simp only [scanFiles]
      exact ih (scanStep s g now).final hpd.2 f hmem

/-- A pass over settled files is a no-op with zero counters. -/
theorem scanFiles_noop (fs : List FileEntry) (s : Store) (now : GoTime) :
    (∀ f ∈ fs, Settled s f) → scanFiles s fs now = (s, {}) := by
  induction fs with
  | nil => intro _; rfl
  | cons g rest ih =>
    intro hall
    simp only [scanFiles]
    rw [scanStep_of_settled s g now (hall g (List.mem_cons_self g rest))]
    simp only [noopStep]
    rw [ih (fun f hf => hall f (List.mem_cons_of_mem g hf))]
    rfl

/-- C5: a file whose live record matches the stat data is skipped with
no store write and no counter change, independently of the content
hashes of the file, and a second scan pass over pairwise distinct,
unchanged paths leaves the store untouched with all counters zero, in
particular NewFiles and UpdatedFiles both zero. -/
theorem C5_unchanged_idempotent :
    (∀ (s : Store) (f : FileEntry) (now : GoTime) (e : Media),
        GetMedia s (GenerateID f.path) = some e → e.deletedAt = none →
        e.modifiedAt = f.modTime → e.size = f.size →
        ∀ (ck : String) (ih : Nat),
          scanStep s { f with fileChecksum := ck, fileImageHash := ih } now =
            noopStep s) ∧
    (∀ (s : Store) (fs : List FileEntry) (now now2 : GoTime),
        fs.Pairwise (fun a b => a.path ≠ b.path) →
        scanFiles (scanFiles s fs now).1 fs now2 = ((scanFiles s fs now).1, {})) := by
  constructor
  · intro s f now e h hlive hmod hsz ck ih
    exact scanStep_skip s { f with fileChecksum := ck, fileImageHash := ih } now e h
      (Or.inr ⟨hmod, hsz⟩)
  · intro s fs now now2 hpd
    exact scanFiles_noop fs (scanFiles s fs now).1 now2
      (scanFiles_settles_all fs now s hpd)

/-- Concrete unchanged record and file for the C5 witness. -/
def exStatRecord : Media :=
  { id := "p", path := "p", size := 10, modifiedAt := ⟨2024, 5⟩ }

/-- Concrete file entry whose stat data matches exStatRecord. -/
def exStatFile : FileEntry :=
  { path := "p", size := 10, modTime := ⟨2024, 5⟩, mediaType := .video }

/-- Witness for C5: the unchanged file is skipped as a no-op even when
the content hash inputs vary. -/
theorem C5_witness :
    scanStep [exStatRecord] { exStatFile with fileChecksum := "other", fileImageHash := 7 }
      ⟨2025, 1⟩ = noopStep [exStatRecord] :=
  C5_unchanged_idempotent.1 [exStatRecord] exStatFile ⟨2025, 1⟩ exStatRecord
    rfl rfl rfl rfl "other" 7

/-- Field content of the carry-over block: personal state and content
hashes come from the existing record, stat identity from the fresh
build, and date plus metadata from the existing record exactly when the
stored date is plausible. -/
theorem carryExisting_proj (e media : Media) :
    (carryExisting e media).checksum = e.checksum ∧
    (carryExisting e media).imageHash = e.imageHash ∧
    (carryExisting e media).isFavorite = e.isFavorite ∧
    (carryExisting e media).tags = e.tags ∧
    (carryExisting e media).thumbSmall = e.thumbSmall ∧
    (carryExisting e media).thumbLarge = e.thumbLarge ∧
    (carryExisting e media).createdAt = e.createdAt ∧
    (carryExisting e media).id = media.id ∧
    (carryExisting e media).modifiedAt = media.modifiedAt ∧
    (carryExisting e media).size = media.size ∧
    (1900 < e.takenAt.year → (carryExisting e media).takenAt = e.takenAt ∧
      (carryExisting e media).metadata = e.metadata) ∧
    (¬1900 < e.takenAt.year → (carryExisting e media).takenAt = media.takenAt ∧
      (carryExisting e media).metadata = media.metadata) := by
  refine ⟨?_, ?_, ?_, ?_, ?_, ?_, ?_, ?_, ?_, ?_, ?_, ?_⟩
  case _ => simp only [carryExisting]; split <;> rfl
  case _ => simp only [carryExisting]; split <;> rfl
  case _ => simp only [carryExisting]; split <;> rfl
  case _ => simp only [carryExisting]; split <;> rfl
  case _ => simp only [carryExisting]; split <;> rfl
  case _ => simp only [carryExisting]; split <;> rfl
  case _ => simp only [carryExisting]; split <;> rfl
  case _ => simp only [carryExisting]; split <;> rfl
  case _ => simp only [carryExisting]; split <;> rfl
  case _ => simp only [carryExisting]; split <;> rfl
  case _ =>
    intro hy
    simp only [carryExisting]
    rw [if_pos hy]
    exact ⟨rfl, rfl⟩
  case _ =>
    intro hy
    simp only [carryExisting]
    rw [if_neg hy]
    exact ⟨rfl, rfl⟩

/-- The hashing block leaves a record with a checksum untouched and
fills both hash fields from the file otherwise. -/
theorem applyHashes_proj (f : FileEntry) (b : Bool) (media : Media) :
    (media.checksum ≠ "" → applyHashes f b media = media) ∧
    (media.checksum = "" → applyHashes f b media =
      { media with checksum := f.fileChecksum
                   imageHash := if b then f.fileImageHash else 0 }) := by
  constructor
  · intro h
    simp only [applyHashes]
    rw [if_neg h]
  · intro h
    simp only [applyHashes]
    rw [if_pos h]

/-- C4 amended: a changed file with a live stored record is rebuilt and
saved with the stat fields of the file and UpdatedFiles incremented,
but the checksum and perceptual hash are carried over from the stored
record whenever a checksum is already present; they are recomputed from
the current bytes only when the stored checksum is empty, and the
stored date and metadata are kept only when already plausible, never
re-extracted from the file. -/
theorem C4_rescan_carries_hashes (s : Store) (f : FileEntry) (now : GoTime) (e : Media)
    (h : GetMedia s (GenerateID f.path) = some e)
    (hlive : e.deletedAt = none)
    (hchanged : ¬(e.modifiedAt = f.modTime ∧ e.size = f.size)) :
    ∃ r, scanStep s f now =
        { trace := [SaveMedia s r], final := SaveMedia s r
          counters := { updatedFiles := 1 } } ∧
      r.id = GenerateID f.path ∧ r.size = f.size ∧ r.modifiedAt = f.modTime ∧
      (e.checksum ≠ "" → r.checksum = e.checksum ∧ r.imageHash = e.imageHash) ∧
      (e.checksum = "" → r.checksum = f.fileChecksum ∧
        r.imageHash = (if mediaIsImage f.mediaType then f.fileImageHash else 0)) ∧
      r.isFavorite = e.isFavorite ∧ r.tags = e.tags ∧
      r.thumbSmall = e.thumbSmall ∧ r.thumbLarge = e.thumbLarge ∧
      r.createdAt = e.createdAt ∧
      (1900 < e.takenAt.year → r.takenAt = e.takenAt ∧ r.metadata = e.metadata) ∧
      (¬1900 < e.takenAt.year → r.takenAt = GoTime.zero ∧ r.metadata = {}) := by
  have hd' : (e.deletedAt != none) = false := by simp [hlive]
  have hc' : (e.modifiedAt == f.modTime && e.size == f.size) = false := by
    rcases not_and_or.mp hchanged with hm | hs
    · simp [beq_eq_false_iff_ne.mpr hm]
    · simp [beq_eq_false_iff_ne.mpr hs]
  obtain ⟨hck, hih, hfav, htags, hts, htl, hcr, -, -, -, hyy, hyn⟩ :=
    carryExisting_proj e (buildMedia f now)
  obtain ⟨hid, hmod, hsz⟩ := rebuiltMedia_fields f now e
  obtain ⟨hkeep, hfill⟩ := applyHashes_proj f (mediaIsImage f.mediaType)
    (carryExisting e (buildMedia f now))
  refine ⟨applyHashes f (mediaIsImage f.mediaType) (carryExisting e (buildMedia f now)),
    ?_, hid, hsz, hmod, ?_, ?_, ?_, ?_, ?_, ?_, ?_, ?_, ?_⟩
  · simp only [scanStep, h, hd', hc', Bool.false_eq_true, if_false]
  · intro hne
    rw [hkeep (by rw [hck]; exact hne)]
    exact ⟨hck, hih⟩
  · intro heq
    rw [hfill (by rw [hck]; exact heq)]
    exact ⟨rfl, rfl⟩
  · rw [show (applyHashes f (mediaIsImage f.mediaType)
      (carryExisting e (buildMedia f now))).isFavorite =
      (carryExisting e (buildMedia f now)).isFavorite from by
        simp only [applyHashes]; split <;> rfl]
    exact hfav
  · rw [show (applyHashes f (mediaIsImage f.mediaType)
      (carryExisting e (buildMedia f now))).tags =
      (carryExisting e (buildMedia f now)).tags from by
        simp only [applyHashes]; split <;> rfl]
    exact htags
  · rw [show (applyHashes f (mediaIsImage f.mediaType)
      (carryExisting e (buildMedia f now))).thumbSmall =
      (carryExisting e (buildMedia f now)).thumbSmall from by
        simp only [applyHashes]; split <;> rfl]
    exact hts
  · rw [show (applyHashes f (mediaIsImage f.mediaType)
      (carryExisting e (buildMedia f now))).thumbLarge =
      (carryExisting e (buildMedia f now)).thumbLarge from by
        simp only [applyHashes]; split <;> rfl]
    exact htl
  · rw [show (applyHashes f (mediaIsImage f.mediaType)
      (carryExisting e (buildMedia f now))).createdAt =
      (carryExisting e (buildMedia f now)).createdAt from by
        simp only [applyHashes]; split <;> rfl]
    exact hcr
  · intro hy
    rw [show (applyHashes f (mediaIsImage f.mediaType)
      (carryExisting e (buildMedia f now))).takenAt =
      (carryExisting e (buildMedia f now)).takenAt from by
        simp only [applyHashes]; split <;> rfl]
    rw [show (applyHashes f (mediaIsImage f.mediaType)
      (carryExisting e (buildMedia f now))).metadata =
      (carryExisting e (buildMedia f now)).metadata from by
        simp only [applyHashes]; split <;> rfl]
    exact hyy hy
  · intro hy
    rw [show (applyHashes f (mediaIsImage f.mediaType)
      (carryExisting e (buildMedia f now))).takenAt =
      (carryExisting e (buildMedia f now)).takenAt from by
        simp only [applyHashes]; split <;> rfl]
    rw [show (applyHashes f (mediaIsImage f.mediaType)
      (carryExisting e (buildMedia f now))).metadata =
      (carryExisting e (buildMedia f now)).metadata from by
        simp only [applyHashes]; split <;> rfl]
    obtain ⟨ht, hm⟩ := hyn hy
    exact ⟨ht, hm⟩

/-- Stored record before the file changed, used for C4. -/
def exOldRecord : Media :=
  { id := "p", path := "p", size := 100, modifiedAt := ⟨2020, 1⟩,
    checksum := "old", imageHash := 3 }

/-- The same file after its bytes changed, used for C4. -/
def exChangedFile : FileEntry :=
  { path := "p", size := 200, modTime := ⟨2021, 1⟩, mediaType := .image,
    fileChecksum := "new", fileImageHash := 9 }

/-- Counterexample for C4 as stated: after rescanning the changed file
the saved record still carries the checksum of the old bytes, not the
SHA-256 of the current bytes. -/
theorem C4_counterexample :
    (GetMedia (scanStep [exOldRecord] exChangedFile ⟨2022, 1⟩).final "p").map Media.checksum =
      some "old" ∧
    exChangedFile.fileChecksum = "new" ∧ ("old" : String) ≠ "new" :=
  ⟨rfl, rfl, by decide⟩

/-- Witness for C4 amended: at the concrete changed file the theorem
applies and the rebuilt record carries the stored hashes. -/
theorem C4_witness :
    ∃ r, scanStep [exOldRecord] exChangedFile ⟨2022, 1⟩ =
        { trace := [SaveMedia [exOldRecord] r], final := SaveMedia [exOldRecord] r
          counters := { updatedFiles := 1 } } ∧
      r.id = GenerateID exChangedFile.path ∧ r.size = exChangedFile.size ∧
      r.modifiedAt = exChangedFile.modTime ∧
      (exOldRecord.checksum ≠ "" → r.checksum = exOldRecord.checksum ∧
        r.imageHash = exOldRecord.imageHash) ∧
      (exOldRecord.checksum = "" → r.checksum = exChangedFile.fileChecksum ∧
        r.imageHash = (if mediaIsImage exChangedFile.mediaType then
          exChangedFile.fileImageHash else 0)) ∧
      r.isFavorite = exOldRecord.isFavorite ∧ r.tags = exOldRecord.tags ∧
      r.thumbSmall = exOldRecord.thumbSmall ∧ r.thumbLarge = exOldRecord.thumbLarge ∧
      r.createdAt = exOldRecord.createdAt ∧
      (1900 < exOldRecord.takenAt.year → r.takenAt = exOldRecord.takenAt ∧
        r.metadata = exOldRecord.metadata) ∧
      (¬1900 < exOldRecord.takenAt.year → r.takenAt = GoTime.zero ∧ r.metadata = {}) :=
  C4_rescan_carries_hashes [exOldRecord] exChangedFile ⟨2022, 1⟩ exOldRecord
    rfl rfl (by decide)

/-- GetMedia after SaveMedia under an equal key. -/
theorem getMedia_saveMedia_key (s : Store) (m : Media) (id : String)
    (h : m.id = id) : GetMedia (SaveMedia s m) id = some m :=
  h ▸ getMedia_saveMedia_same s m

/-- C3 amended: a brand-new file whose duplicate check hits is first
persisted live, marked DuplicateOf, and only then soft-deleted in a
second write: in the intermediate store between the two writes the
record is present in a live listing; when processing completes the
record is stored with DuplicateOf set to the matched ID and DeletedAt
set to the current time, no live record remains under its ID, and
SkippedDuplicates is incremented. -/
theorem C3_duplicate_flow (s : Store) (f : FileEntry) (now : GoTime)
    (hnew : GetMedia s (GenerateID f.path) = none)
    (hdup : (CheckDuplicate s (newFileMedia f now).size (newFileMedia f now).checksum
        (newFileMedia f now).imageHash (mediaIsImage f.mediaType) 10).isDuplicate = true) :
    ∃ s1 s2 r,
      scanStep s f now =
        { trace := [s1, s2]
          final := s2
          counters := { skippedDuplicates := 1 } } ∧
      GetMedia s1 (GenerateID f.path) = some r ∧
      r.deletedAt = none ∧ r ∈ ListAllMedia s1 ∧
      r.duplicateOf = (CheckDuplicate s (newFileMedia f now).size (newFileMedia f now).checksum
        (newFileMedia f now).imageHash (mediaIsImage f.mediaType) 10).existingID ∧
      GetMedia s2 (GenerateID f.path) = some { r with deletedAt := some now } ∧
      ∀ m ∈ ListAllMedia s2, m.id ≠ GenerateID f.path := by
  obtain ⟨hid, -, -, hdel⟩ := newFileMedia_fields f now
  set media := newFileMedia f now with hmedia
  set dup := CheckDuplicate s media.size media.checksum media.imageHash
    (mediaIsImage f.mediaType) 10 with hdupdef
  have hAid : ({ media with duplicateOf := dup.existingID } : Media).id =
      GenerateID f.path := hid
  have hfresh : ∀ x ∈ s, x.id ≠ GenerateID f.path :=
    (getMedia_eq_none_iff s (GenerateID f.path)).mp hnew
  have hs1 : SaveMedia s { media with duplicateOf := dup.existingID } =
      s ++ [{ media with duplicateOf := dup.existingID }] :=
    saveMedia_of_not_mem s _ (fun x hx he => hfresh x hx (he.trans hAid))
  have hget1 : GetMedia (SaveMedia s { media with duplicateOf := dup.existingID })
      (GenerateID f.path) = some { media with duplicateOf := dup.existingID } :=
    getMedia_saveMedia_key s _ _ hAid
  have hsoft : SoftDeleteMedia (SaveMedia s { media with duplicateOf := dup.existingID })
      ({ media with duplicateOf := dup.existingID } : Media).id now =
      .ok (SaveMedia (SaveMedia s { media with duplicateOf := dup.existingID })
        { { media with duplicateOf := dup.existingID } with deletedAt := some now }) := by
    have hget1' := getMedia_saveMedia_same s { media with duplicateOf := dup.existingID }
    simp only [SoftDeleteMedia, hget1']
  refine ⟨SaveMedia s { media with duplicateOf := dup.existingID },
    SaveMedia (SaveMedia s { media with duplicateOf := dup.existingID })
      { { media with duplicateOf := dup.existingID } with deletedAt := some now },
    { media with duplicateOf := dup.existingID }, ?_, hget1, hdel, ?_, rfl, ?_, ?_⟩
  · simp only [scanStep, hnew]
    rw [if_pos hdup]
    simp only [hsoft]
  · rw [hs1]
    refine List.mem_filter.mpr ⟨List.mem_append_right s (List.mem_singleton.mpr rfl), ?_⟩
    simp only [beq_iff_eq]
    exact hdel
  · exact getMedia_saveMedia_key _ _ _ hAid
  · intro m hm
    have hm' := List.mem_filter.mp hm
    obtain ⟨hmem, hlivem⟩ := hm'
    have hany : (SaveMedia s { media with duplicateOf := dup.existingID }).any
        (fun x => x.id == ({ { media with duplicateOf := dup.existingID } with
          deletedAt := some now } : Media).id) = true := by
      refine List.any_eq_true.mpr ⟨{ media with duplicateOf := dup.existingID }, ?_, ?_⟩
      · rw [hs1]
        exact List.mem_append_right s (List.mem_singleton.mpr rfl)
      · exact beq_self_eq_true _
    rw [saveMedia_of_any _ _ hany, hs1, List.map_append] at hmem
    rcases List.mem_append.mp hmem with hx | hx
    · obtain ⟨x, hxs, hxe⟩ := List.mem_map.mp hx
      have hxne : (x.id == ({ { media with duplicateOf := dup.existingID } with
          deletedAt := some now } : Media).id) = false :=
        beq_eq_false_iff_ne.mpr (fun he => hfresh x hxs (he.trans hAid))
      rw [hxne] at hxe
      simp only [Bool.false_eq_true, if_false] at hxe
      rw [← hxe]
      exact hfresh x hxs
    · obtain ⟨x, hxs, hxe⟩ := List.mem_map.mp hx
      have hxA : x = { media with duplicateOf := dup.existingID } :=
        List.mem_singleton.mp hxs
      rw [hxA, if_pos (beq_self_eq_true _)] at hxe
      rw [← hxe] at hlivem
      simp at hlivem

/-- Existing original record used by C3. -/
def exOrig : Media := { id := "o", path := "o", size := 100, checksum := "abc" }

/-- A brand-new file with the same bytes as exOrig, used by C3. -/
def exNewDupFile : FileEntry :=
  { path := "n", size := 100, modTime := ⟨2024, 9⟩, mediaType := .video,
    fileChecksum := "abc" }

/-- Counterexample for C3 as stated: between the persist and the soft
delete the detected duplicate is present in a live listing of one of
the traced store states. -/
theorem C3_counterexample :
    ∃ s1 ∈ (scanStep [exOrig] exNewDupFile ⟨2024, 2⟩).trace,
      ∃ m ∈ ListAllMedia s1, m.id = GenerateID exNewDupFile.path := by decide

/-- Witness for C3 amended: on the concrete duplicate file the theorem
applies, and processing ends with SkippedDuplicates incremented. -/
theorem C3_witness :
    (scanStep [exOrig] exNewDupFile ⟨2024, 2⟩).counters = { skippedDuplicates := 1 } := by
  obtain ⟨s1, s2, r, hstep, -, -, -, -, -, -⟩ :=
    C3_duplicate_flow [exOrig] exNewDupFile ⟨2024, 2⟩ rfl (by decide)
  rw [hstep]

/-- C9 amended: Submit never blocks the caller; while the pool is
running it either enqueues the task, returning true and touching only
the queue and statistics, or returns false with the pool unchanged
when the queue is at capacity; after Stop it returns false with the
pool unchanged when the select takes the cancellation case, but the
competing send on the closed intake channel may be chosen instead,
which panics. -/
theorem C9_submit (p : PoolState) (t : Task) :
    (p.stopped = false → p.queue.length < p.capacity →
        Submit p t = [.accepted { p with
          queue := p.queue ++ [t]
          totalTasks := p.totalTasks + 1
          queuedTasks := p.queuedTasks + 1 }]) ∧
    (p.stopped = false → ¬p.queue.length < p.capacity →
        Submit p t = [.rejectedFull]) ∧
    (p.stopped = true → Submit p t = [.rejectedStopped, .crashSendOnClosed]) := by
  refine ⟨?_, ?_, ?_⟩
  · intro hs hq
    simp only [Submit, hs, Bool.false_eq_true, if_false]
    rw [if_pos hq]
  · intro hs hq
    simp only [Submit, hs, Bool.false_eq_true, if_false]
    rw [if_neg hq]
  · intro hs
    simp only [Submit, hs, if_true]

/-- Concrete task used by the C9 witness and counterexample. -/
def exTask : Task := { id := "t1", mediaID := "m", size := "small" }

/-- Witness for C9: a running pool with room accepts the task. -/
theorem C9_witness :
    Submit { capacity := 2 } exTask =
      [.accepted { capacity := 2, queue := [exTask], totalTasks := 1, queuedTasks := 1 }] := by
  have h := (C9_submit { capacity := 2 } exTask).1 rfl (by decide)
  simpa using h

/-- Counterexample for C9 as stated: on a stopped pool the select may
choose the send on the closed intake channel, which panics, so Submit
does not always return false without panicking once the pool has been
stopped. -/
theorem C9_counterexample :
    SubmitOutcome.crashSendOnClosed ∈ Submit (Stop { capacity := 2 }) exTask := by decide

/-- C6: QueueThumbnail refuses permanently failed and in-flight pairs
without touching the pool; otherwise it marks the pair in flight and
submits exactly one task to the pool; a rejected submission removes the
mark and returns false, leaving the state exactly as before the call;
and a second call for the same pair before completion returns false
with the pool unchanged, so two rapid calls submit exactly one task. -/
theorem C6_queue_thumbnail (st : ThumbState) (p : PoolState) (mediaID size : String)
    (t t2 : Task) :
    (hasFailed st (thumbKey mediaID size) = true →
        QueueThumbnail st p mediaID size t = (st, p, false)) ∧
    (hasFailed st (thumbKey mediaID size) = false →
      st.processing.contains (thumbKey mediaID size) = true →
        QueueThumbnail st p mediaID size t = (st, p, false)) ∧
    (hasFailed st (thumbKey mediaID size) = false →
      st.processing.contains (thumbKey mediaID size) = false →
      p.queue.length < p.capacity →
        QueueThumbnail st p mediaID size t =
          ({ st with processing := thumbKey mediaID size :: st.processing },
            { p with
              queue := p.queue ++ [t]
              totalTasks := p.totalTasks + 1
              queuedTasks := p.queuedTasks + 1 }, true) ∧
        QueueThumbnail { st with processing := thumbKey mediaID size :: st.processing }
            { p with
              queue := p.queue ++ [t]
              totalTasks := p.totalTasks + 1
              queuedTasks := p.queuedTasks + 1 } mediaID size t2 =
          ({ st with processing := thumbKey mediaID size :: st.processing },
            { p with
              queue := p.queue ++ [t]
              totalTasks := p.totalTasks + 1
              queuedTasks := p.queuedTasks + 1 }, false)) ∧
    (hasFailed st (thumbKey mediaID size) = false →
      st.processing.contains (thumbKey mediaID size) = false →
      ¬p.queue.length < p.capacity →
        QueueThumbnail st p mediaID size t = (st, p, false)) := by
  refine ⟨?_, ?_, ?_, ?_⟩
  · intro hf
    simp only [QueueThumbnail, hf, if_true]
  · intro hf hp
    simp only [QueueThumbnail, hf, Bool.false_eq_true, if_false, hp, if_true]
  · intro hf hp hq
    constructor
    · simp only [QueueThumbnail, hf, Bool.false_eq_true, if_false, hp, SubmitRun]
      rw [if_pos hq]
    · have hf2 : hasFailed { st with processing := thumbKey mediaID size :: st.processing }
          (thumbKey mediaID size) = false := hf
      have hp2 : (thumbKey mediaID size :: st.processing).contains
          (thumbKey mediaID size) = true := by
        simp [List.contains_cons]
      simp only [QueueThumbnail, hf2, Bool.false_eq_true, if_false, hp2, if_true]
  · intro hf hp hq
    simp only [QueueThumbnail, hf, Bool.false_eq_true, if_false, hp, SubmitRun]
    rw [if_neg hq]
    rw [List.erase_cons_head]

/-- Witness for C6: on an idle service with pool room the first call
submits the task and the second call is refused with the pool
unchanged. -/
theorem C6_witness :
    QueueThumbnail {} { capacity := 2 } "m" "small" exTask =
      ({ processing := [thumbKey "m" "small"] },
        { capacity := 2, queue := [exTask], totalTasks := 1, queuedTasks := 1 }, true) ∧
    QueueThumbnail { processing := [thumbKey "m" "small"] }
        { capacity := 2, queue := [exTask], totalTasks := 1, queuedTasks := 1 }
        "m" "small" { exTask with id := "t2" } =
      ({ processing := [thumbKey "m" "small"] },
        { capacity := 2, queue := [exTask], totalTasks := 1, queuedTasks := 1 }, false) := by
  have h := (C6_queue_thumbnail {} { capacity := 2 } "m" "small" exTask
    { exTask with id := "t2" }).2.2.1 rfl rfl (by decide)
  exact ⟨h.1, h.2⟩

/-- QueueThumbnail never changes the failed map. -/
theorem queueThumbnail_failedKeys (st : ThumbState) (p : PoolState)
    (mediaID size : String) (t : Task) :
    (QueueThumbnail st p mediaID size t).1.failedKeys = st.failedKeys := by
  simp only [QueueThumbnail]
  split
  · rfl
  · split
    · rfl
    · simp only [SubmitRun]
      split
      · rfl
      · rfl

/-- markAsFailed keeps every key already present in the failed map. -/
theorem markAsFailed_mono (st : ThumbState) (mediaID size errMsg key : String)
    (h : hasFailed st key = true) :
    hasFailed (markAsFailed st mediaID size errMsg) key = true := by
  simp only [hasFailed, markAsFailed, List.any_cons, Bool.or_eq_true]
  by_cases hk : thumbKey mediaID size = key
  · left
    simpa using hk
  · right
    obtain ⟨kv, hkv, hbeq⟩ := List.any_eq_true.mp h
    refine List.any_eq_true.mpr ⟨kv, List.mem_filter.mpr ⟨hkv, ?_⟩, hbeq⟩
    have hne : kv.1 ≠ thumbKey mediaID size := by
      intro he
      exact hk (he ▸ beq_iff_eq.mp hbeq)
    simpa using hne

/-- A key in the failed map survives one handler run. -/
theorem handleThumbnail_failed_mono (s : Store) (st : ThumbState) (task : Task)
    (gen : GenOutcome) (key : String) (h : hasFailed st key = true) :
    hasFailed (handleThumbnail s st task gen).thumbs key = true := by
  have hdefer : ∀ st1 : ThumbState, hasFailed st1 key = true →
      hasFailed (if hasFailed st1 (thumbKey task.mediaID task.size) then st1
        else { st1 with processing :=
          st1.processing.erase (thumbKey task.mediaID task.size) }) key = true := by
    intro st1 h1
    split
    · exact h1
    · exact h1
  simp only [handleThumbnail]
  split
  · exact hdefer st h
  · split
    · split
      · exact hdefer _ (markAsFailed_mono st _ _ _ key h)
      · exact hdefer _ h
    · exact hdefer _ h

/-- C7: a permanently classified generation failure memoizes the pair
(the in-flight flag is removed and the pair enters the failed map); a
failed pair stays failed across every later queue or completion
operation of the service; every later QueueThumbnail for a failed pair
returns false with the service and pool unchanged; and a failure that
matches no permanent signature leaves the failed map unchanged and
only clears the in-flight flag, keeping the pair eligible for retry. -/
theorem C7_permanent_memoization :
    (∀ (s : Store) (st : ThumbState) (task : Task) (errMsg : String) (m : Media),
        GetMedia s task.mediaID = some m →
        isPermanentError errMsg = true →
        (handleThumbnail s st task (.failure errMsg)).thumbs.processing =
          st.processing.erase (thumbKey task.mediaID task.size) ∧
        hasFailed (handleThumbnail s st task (.failure errMsg)).thumbs
          (thumbKey task.mediaID task.size) = true) ∧
    (∀ (σ : ServiceState) (ops : List ServiceOp) (key : String),
        hasFailed σ.thumbs key = true →
        hasFailed (runOps σ ops).thumbs key = true) ∧
    (∀ (st : ThumbState) (p : PoolState) (mediaID size : String) (t : Task),
        hasFailed st (thumbKey mediaID size) = true →
        QueueThumbnail st p mediaID size t = (st, p, false)) ∧
    (∀ (s : Store) (st : ThumbState) (task : Task) (errMsg : String) (m : Media),
        GetMedia s task.mediaID = some m →
        isPermanentError errMsg = false →
        hasFailed st (thumbKey task.mediaID task.size) = false →
        (handleThumbnail s st task (.failure errMsg)).thumbs =
          { st with processing :=
            st.processing.erase (thumbKey task.mediaID task.size) }) := by
  refine ⟨?_, ?_, ?_, ?_⟩
  · intro s st task errMsg m hm hperm
    have hmark : hasFailed (markAsFailed st task.mediaID task.size errMsg)
        (thumbKey task.mediaID task.size) = true := by
      simp [hasFailed, markAsFailed]
    simp only [handleThumbnail, hm, hperm, if_true, hmark]
    exact ⟨rfl, trivial⟩
  · intro σ ops
    induction ops generalizing σ with
    | nil => intro key h; exact h
    | cons op rest ih =>
      intro key h
      simp only [runOps]
      refine ih (runOp σ op) key ?_
      cases op with
      | queue mediaID size t =>
        simp only [runOp]
        have hq := queueThumbnail_failedKeys σ.thumbs σ.pool mediaID size t
        simp only [hasFailed] at h ⊢
        rw [hq]
        exact h
      | handle task gen =>
        simp only [runOp]
        exact handleThumbnail_failed_mono σ.store σ.thumbs task gen key h
  · intro st p mediaID size t hf
    simp only [QueueThumbnail, hf, if_true]
  · intro s st task errMsg m hm hperm hnofail
    simp only [handleThumbnail, hm, hperm, Bool.false_eq_true, if_false, hnofail]

/-- Concrete record and task used by the worker witnesses. -/
def exThumbMedia : Media := { id := "m", path := "m" }

/-- Concrete thumbnail task for the medium size class. -/
def exMediumTask : Task := { id := "t3", mediaID := "m", size := "medium" }

/-- Witness for C7: a decode failure with a permanent signature
memoizes the pair on the concrete service state. -/
theorem C7_witness :
    (handleThumbnail [exThumbMedia] { processing := [thumbKey "m" "small"] }
        { id := "t4", mediaID := "m", size := "small" }
        (.failure "image: unknown format")).thumbs.processing =
      [thumbKey "m" "small"].erase (thumbKey "m" "small") ∧
    hasFailed (handleThumbnail [exThumbMedia] { processing := [thumbKey "m" "small"] }
        { id := "t4", mediaID := "m", size := "small" }
        (.failure "image: unknown format")).thumbs (thumbKey "m" "small") = true :=
  C7_permanent_memoization.1 [exThumbMedia] { processing := [thumbKey "m" "small"] }
    { id := "t4", mediaID := "m", size := "small" } "image: unknown format"
    exThumbMedia rfl (by decide)

/-- C8 amended: on success the handler writes the generated path into
the field of the persisted record for the small and large size
classes and saves the record; for the medium class, which
QueueAllThumbnails also enqueues, the record carries no medium field:
it is saved unchanged and no field receives the generated path. -/
theorem C8_thumbnail_paths (s : Store) (st : ThumbState) (mediaID thumbPath : String)
    (m : Media) (hm : GetMedia s mediaID = some m) :
    (handleThumbnail s st { mediaID := mediaID, size := "small" }
        (.success thumbPath)).store = SaveMedia s { m with thumbSmall := thumbPath } ∧
    (handleThumbnail s st { mediaID := mediaID, size := "large" }
        (.success thumbPath)).store = SaveMedia s { m with thumbLarge := thumbPath } ∧
    (handleThumbnail s st { mediaID := mediaID, size := "medium" }
        (.success thumbPath)).store = SaveMedia s m ∧
    GetMedia (SaveMedia s { m with thumbSmall := thumbPath }) mediaID =
      some { m with thumbSmall := thumbPath } ∧
    GetMedia (SaveMedia s { m with thumbLarge := thumbPath }) mediaID =
      some { m with thumbLarge := thumbPath } ∧
    GetMedia (SaveMedia s m) mediaID = some m := by
  have hid : m.id = mediaID := (getMedia_some s mediaID m hm).2
  refine ⟨?_, ?_, ?_, ?_, ?_, ?_⟩
  · simp only [handleThumbnail, hm]
    rw [if_pos (by decide)]
  · simp only [handleThumbnail, hm]
    rw [if_neg (by decide), if_pos (by decide)]
  · simp only [handleThumbnail, hm]
    rw [if_neg (by decide), if_neg (by decide)]
  · exact getMedia_saveMedia_key s _ _ hid
  · exact getMedia_saveMedia_key s _ _ hid
  · exact getMedia_saveMedia_key s _ _ hid

/-- Counterexample for C8 as stated: completing a medium-class task
saves the record unchanged; no field of the persisted record receives
the generated path, although the claim promises a size-specific field
for every enqueued class including medium. -/
theorem C8_counterexample :
    (handleThumbnail [exThumbMedia] {} exMediumTask (.success "p.jpg")).store =
      [exThumbMedia] ∧
    exThumbMedia.thumbSmall ≠ "p.jpg" ∧ exThumbMedia.thumbLarge ≠ "p.jpg" :=
  ⟨rfl, by decide, by decide⟩

/-- Witness for C8 amended: on the concrete one-record store the three
completions store the expected records. -/
theorem C8_witness :
    (handleThumbnail [exThumbMedia] {} { mediaID := "m", size := "small" }
        (.success "p.jpg")).store =
      SaveMedia [exThumbMedia] { exThumbMedia with thumbSmall := "p.jpg" } ∧
    (handleThumbnail [exThumbMedia] {} { mediaID := "m", size := "large" }
        (.success "p.jpg")).store =
      SaveMedia [exThumbMedia] { exThumbMedia with thumbLarge := "p.jpg" } ∧
    (handleThumbnail [exThumbMedia] {} { mediaID := "m", size := "medium" }
        (.success "p.jpg")).store = SaveMedia [exThumbMedia] exThumbMedia := by
  have h := C8_thumbnail_paths [exThumbMedia] {} "m" "p.jpg" exThumbMedia rfl
  exact ⟨h.1, h.2.1, h.2.2.1⟩

end PhotoCore
